import Mathlib

/-!
Verification of the multi-source paper aggregation and deduplication pipeline
of the research-tracker repository.

The Python code is shallowly embedded: each relevant function becomes a pure
Lean function over explicit state. Timestamps are modelled as natural numbers,
the SQL table `papers` as a list of rows, and every fallible operation as an
`Except` value. Network calls are modelled by passing the provider response
(or failure outcome) as an explicit argument.
-/

namespace ResearchTracker

/-- A normalized paper dictionary, as produced by the scrapers in
`src/scrapers/*.py` (`_normalize_paper` returns a `Dict[str, Any]`).
Only the fields the verified claims touch are carried. Optional values that
Python renders as missing keys are `Option`; values that Python defaults to
a string keep type `String` (the empty string plays the role of a falsy id,
exactly as in the Python truthiness tests). -/
structure PaperDict where
  title : String
  paper_id : String
  semantic_scholar_id : String := ""
  source : String
  citation_count : Nat := 0
  fetched_at : Nat := 0
  deriving Repr, DecidableEq

/-- A row of the `papers` table (`src/database/models.py`). `id` is the
autoincrement surrogate key; `paper_id` is the provider-supplied identifier
column, nullable and carrying a UNIQUE constraint. -/
structure PaperRow where
  id : Nat
  title : String
  paper_id : Option String
  source : String
  citation_count : Nat := 0
  fetched_at : Nat := 0
  deriving Repr, DecidableEq

/-- The persistent store: the list of rows of the `papers` table. -/
abbrev Store := List PaperRow

/-- Next autoincrement value for the surrogate key. -/
def nextId (store : Store) : Nat :=
  store.foldr (fun r m => max (r.id + 1) m) 0

/-- Conversion of a normalized dictionary into a table row, as performed by
`PaperRepository.add_paper` (`Paper(title=..., paper_id=..., ...)`).
The dictionary always carries a `paper_id` key, so the stored column value is
`some p.paper_id` (Python stores the string verbatim, including `""`). -/
def mkRow (store : Store) (p : PaperDict) : PaperRow :=
  { id := nextId store
    title := p.title
    paper_id := some p.paper_id
    source := p.source
    citation_count := p.citation_count
    fetched_at := p.fetched_at }

/-- `session.add` + `session.commit` under the UNIQUE constraint on the
`paper_id` column (`models.py` line 21). The commit is rejected exactly when
the new row carries a non-NULL `paper_id` equal to the `paper_id` of a stored
row; NULL values are exempt, per SQL UNIQUE semantics. -/
def commitRow (store : Store) (row : PaperRow) : Except Unit Store :=
  match row.paper_id with
  | none => Except.ok (store ++ [row])
  | some s =>
      if store.any (fun r => r.paper_id == some s) then Except.error ()
      else Except.ok (store ++ [row])

/-- `PaperRepository.add_paper` on a dictionary argument. -/
def add_paper (store : Store) (p : PaperDict) : Except Unit Store :=
  commitRow store (mkRow store p)

/-- `PaperRepository.exists`: global lookup by the `paper_id` column, with no
source scoping. -/
def existsPaper (store : Store) (paper_id : String) : Bool :=
  store.any (fun r => r.paper_id == some paper_id)

/-- `PaperRepository.get_by_paper_id`: lookup by `paper_id`, additionally
filtered by `source` when the `source` argument is truthy (non-empty). -/
def get_by_paper_id (store : Store) (paper_id : String) (source : String) :
    Option PaperRow :=
  (store.filter (fun r =>
    r.paper_id == some paper_id && (source == "" || r.source == source))).head?

/-- State threaded through the intake loop of `scripts/daily_fetch.py`:
the store plus the `new_papers_count` and `duplicate_count` counters. -/
structure IntakeState where
  store : Store
  newCount : Nat
  dupCount : Nat
  deriving Repr, DecidableEq

/-- One iteration of the intake loop of `scripts/daily_fetch.py` (lines
55-71): skip and count the candidate as duplicate when `repo.exists(paper_id)`
holds, otherwise insert it; an insert failure is caught, logged and the loop
continues without touching either counter. -/
def dailyFetchStep (st : IntakeState) (p : PaperDict) : IntakeState :=
  if existsPaper st.store p.paper_id then
    { st with dupCount := st.dupCount + 1 }
  else
    match add_paper st.store p with
    | Except.ok store2 => { st with store := store2, newCount := st.newCount + 1 }
    | Except.error _ => st

/-- The intake loop of `scripts/daily_fetch.py` over the whole fetched batch. -/
def dailyFetchIntake (papers : List PaperDict) (store : Store) : IntakeState :=
  papers.foldl dailyFetchStep { store := store, newCount := 0, dupCount := 0 }

/-- Split a character list into its maximal runs of non-whitespace
characters (`cur` accumulates the current run, reversed). Structural
recursion, so concrete instances evaluate inside the kernel. -/
def wordsAux (cur : List Char) : List Char → List (List Char)
  | [] => if cur.isEmpty then [] else [cur.reverse]
  | c :: cs =>
    if c.isWhitespace then
      if cur.isEmpty then wordsAux [] cs else cur.reverse :: wordsAux [] cs
    else wordsAux (c :: cur) cs

/-- Normalized title: lower-cased and whitespace-collapsed
(spec glossary; used by the maintenance job). -/
def normalizeTitle (s : String) : String :=
  String.intercalate " "
    ((wordsAux [] (s.data.map Char.toLower)).map (fun w => String.mk w))

/-- The substring after the last `/` (the whole string when there is no
`/`) — Python's `s.split('/')[-1]`. -/
def afterLastSlash (s : String) : String :=
  String.mk ((s.data.reverse.takeWhile (fun c => c != '/')).reverse)

/-- The substring before the first `v` (the whole string when there is no
`v`) — Python's `s.split('v')[0]`. -/
def beforeFirstV (s : String) : String :=
  String.mk (s.data.takeWhile (fun c => c != 'v'))

/-! ## Provider adapters

A provider HTTP interaction is passed in as an explicit outcome value: either
the transport layer failed (timeout / connection / JSON parse exception), or
the server answered with a non-200 status, or it answered 200 with a list of
raw items. The per-item `try/except` around `_normalize_paper` is modelled by
a normalization function returning `Except`. -/

/-- Outcome of one HTTP request, as seen by an adapter. -/
inductive ApiResult (α : Type) where
  | transportError : ApiResult α
  | httpError (status : Nat) : ApiResult α
  | ok (items : List α) : ApiResult α
  deriving Repr, DecidableEq

/-- The per-item loop shared by the scrapers: normalize each raw item,
skipping (never aborting on) the items whose normalization raises. -/
def collectNormalized {α : Type} (norm : α → Except Unit PaperDict)
    (items : List α) : List PaperDict :=
  items.filterMap (fun a => (norm a).toOption)

/-- Raw Semantic Scholar search item (the fields the claims touch);
`title := none` models an absent `title` key. -/
structure SSItem where
  title : Option String := none
  paperId : String := ""
  arxivId : String := ""
  citationCount : Nat := 0
  deriving Repr, DecidableEq

/-- `SemanticScholarScraper._normalize_paper` (lines 268-327): the title
defaults to the empty string when absent; `paper_id` prefers the arXiv id
(falsy-string fallback to the Semantic Scholar id); `source` is `"arxiv"`
exactly when an arXiv id is present. -/
def ssNormalizePaper (it : SSItem) (now : Nat) : PaperDict :=
  let arxiv_id := it.arxivId
  { title := it.title.getD ""
    paper_id := if arxiv_id != "" then arxiv_id else it.paperId
    semantic_scholar_id := it.paperId
    source := if arxiv_id != "" then "arxiv" else "semantic_scholar"
    citation_count := it.citationCount
    fetched_at := now }

/-- `SemanticScholarScraper.search` (lines 33-88): on HTTP 200 normalize each
item, skipping malformed ones; on a non-200 status or any exception, log and
return the empty list. -/
def ssSearch (norm : SSItem → Except Unit PaperDict)
    (resp : ApiResult SSItem) : List PaperDict :=
  match resp with
  | ApiResult.ok items => collectNormalized norm items
  | _ => []

/-- Raw OpenAlex work object (the fields the claims touch). -/
structure OAItem where
  id : String := ""
  title : Option String := none
  cited_by_count : Nat := 0
  deriving Repr, DecidableEq

/-- `OpenAlexScraper._normalize_paper` (lines 39-95). -/
def oaNormalizePaper (it : OAItem) : PaperDict :=
  { paper_id := it.id.replace "https://openalex.org/" ""
    source := "openalex"
    title := (it.title.getD "").trim
    citation_count := it.cited_by_count
    fetched_at := 0 }

/-- `OpenAlexScraper.search` (lines 141-203): on HTTP 200, normalize each
item inside a per-item `try`, keeping a record only when its title is truthy
(`if paper.get('title')`); on a non-200 status or any exception return `[]`. -/
def oaSearch (norm : OAItem → Except Unit PaperDict)
    (resp : ApiResult OAItem) : List PaperDict :=
  match resp with
  | ApiResult.ok items =>
      items.filterMap (fun it =>
        match norm it with
        | Except.ok p => if p.title != "" then some p else none
        | Except.error _ => none)
  | _ => []

/-- Raw arXiv library result (the fields the claims touch). -/
structure ArxivResult where
  entry_id : String
  title : String
  deriving Repr, DecidableEq

/-- `ArxivScraper._normalize_paper` (lines 146-181): the stored `paper_id`
is `entry_id.split('/')[-1]`, kept verbatim — any version suffix included.
arXiv reports no citations, so `citation_count` is 0. -/
def arxivNormalizePaper (r : ArxivResult) (now : Nat) : PaperDict :=
  { title := r.title
    paper_id := afterLastSlash r.entry_id
    source := "arxiv"
    citation_count := 0
    fetched_at := now }

/-- `ArxivScraper.search` (lines 25-61). The arXiv client yields results as a
stream; `yielded` is the prefix of results produced before the stream either
ended normally (`failed = false`) or raised a transport error
(`failed = true`). The outer `except` swallows the error, so the call returns
the records normalized so far in either case; each item is normalized inside
its own `try`, so a malformed item is skipped. -/
def arxivSearch (norm : ArxivResult → Except Unit PaperDict)
    (yielded : List ArxivResult) (failed : Bool) : List PaperDict :=
  collectNormalized norm yielded

/-- Raw Google Scholar publication object. -/
structure ScholarItem where
  raw : String := ""
  deriving Repr, DecidableEq

/-- `ScholarScraper.search` (lines 35-73): iterate the `scholarly` generator,
stopping after `max_results` items; items are normalized inside a per-item
`try`; a generator/transport error (`failed = true`) is swallowed by the
outer `except` and the records collected so far are returned. -/
def scholarSearch (norm : ScholarItem → Except Unit PaperDict)
    (yielded : List ScholarItem) (failed : Bool) (max_results : Nat) :
    List PaperDict :=
  collectNormalized norm (yielded.take max_results)

/-- Outcome of the single-paper HTTP request issued by
`get_paper_by_arxiv_id`: a transport-layer exception, a non-200 status, or a
200 answer carrying one raw paper object. -/
inductive PaperResponse where
  | transportError : PaperResponse
  | httpError (status : Nat) : PaperResponse
  | ok (item : SSItem) : PaperResponse
  deriving Repr, DecidableEq

/-- `SemanticScholarScraper.get_paper_by_arxiv_id` (lines 90-123). The whole
body sits in a `try/except Exception` that returns `None`: HTTP 200 yields
the normalized paper (a normalization error is caught by the same `except`
and yields `None`), 404 yields `None`, any other status yields `None` after
a warning, and any exception — timeout, connection error, parse error —
is caught and yields `None`. The function never raises. -/
def get_paper_by_arxiv_id (norm : SSItem → Except Unit PaperDict)
    (resp : PaperResponse) : Option PaperDict :=
  match resp with
  | PaperResponse.ok item =>
    match norm item with
    | Except.ok p => some p
    | Except.error _ => none
  | PaperResponse.httpError _ => none
  | PaperResponse.transportError => none

/-- The loop body of `SemanticScholarScraper._get_with_retry`
(lines 183-206), with the outcome of each attempt abstracted: attempt `i`
either raises (`Except.error`) or returns an optional paper. The result is
the returned value together with the list of backoff delays slept (in
seconds, in order) and the number of attempts actually made. -/
def retryLoop (f : Nat → Except Unit (Option PaperDict)) :
    Nat → Nat → Option PaperDict × List Nat × Nat
  | _, 0 => (none, [], 0)
  | attempt, remaining + 1 =>
    match f attempt with
    | Except.ok r => (r, [], 1)
    | Except.error _ =>
      if remaining == 0 then (none, [], 1)
      else
        let rec0 := retryLoop f (attempt + 1) remaining
        (rec0.1, 2 ^ attempt * 5 :: rec0.2.1, rec0.2.2 + 1)

/-- The `_get_with_retry` loop with its default `max_retries = 3`, over an
abstract attempt. -/
def getWithRetry (f : Nat → Except Unit (Option PaperDict)) :
    Option PaperDict × List Nat × Nat :=
  retryLoop f 0 3

/-- `_get_with_retry` as the program actually runs it: each attempt is the
call `self.get_paper_by_arxiv_id(arxiv_id)`, which never raises
(`Except.ok`); `responses i` is the outcome of the HTTP request the `i`-th
attempt would make. -/
def getWithRetryHttp (norm : SSItem → Except Unit PaperDict)
    (responses : Nat → PaperResponse) : Option PaperDict × List Nat × Nat :=
  getWithRetry (fun i => Except.ok (get_paper_by_arxiv_id norm (responses i)))

/-! ## The aggregator (`scripts/custom_theme_search.py`) -/

/-- One iteration of the keyword loop of `search_by_theme` (lines 69-100):
try Semantic Scholar first; when it yields a non-empty list, contribute those
records and skip the fallback; when it raises or yields the empty list, query
OpenAlex (whose own result or failure is handled the same way). Returns the
records contributed for the keyword and whether the fallback was queried. -/
def searchByThemeKeyword (primary fallback0 : Except Unit (List PaperDict)) :
    List PaperDict × Bool :=
  match primary with
  | Except.ok ps =>
    if ps.isEmpty then
      match fallback0 with
      | Except.ok qs => (qs, true)
      | Except.error _ => ([], true)
    else (ps, false)
  | Except.error _ =>
    match fallback0 with
    | Except.ok qs => (qs, true)
    | Except.error _ => ([], true)

/-- The in-batch deduplication of `search_by_theme` (lines 102-109): keep the
first-seen record for each truthy `paper_id`; records with a falsy id are
dropped. -/
def dedupByIdAux (seen : List String) : List PaperDict → List PaperDict
  | [] => []
  | p :: ps =>
    if p.paper_id != "" && !(seen.contains p.paper_id) then
      p :: dedupByIdAux (p.paper_id :: seen) ps
    else dedupByIdAux seen ps

def dedupById (papers : List PaperDict) : List PaperDict :=
  dedupByIdAux [] papers

/-- Python's stable `list.sort(key=..., reverse=True)` on `citation_count`
(line 112), embedded as a stable insertion sort: an element is placed before
the first already-sorted element whose citation count does not exceed its
own, so equal counts keep their original relative order. -/
def insertByCitationsDesc (p : PaperDict) : List PaperDict → List PaperDict
  | [] => [p]
  | q :: qs =>
    if q.citation_count ≤ p.citation_count then p :: q :: qs
    else q :: insertByCitationsDesc p qs

def sortByCitationsDesc : List PaperDict → List PaperDict
  | [] => []
  | p :: ps => insertByCitationsDesc p (sortByCitationsDesc ps)

/-- Lines 102-115 of `search_by_theme`: dedup by id, sort by citations
descending, truncate to `max_papers`. -/
def customThemeOutput (papers : List PaperDict) (max_papers : Nat) :
    List PaperDict :=
  (sortByCitationsDesc (dedupById papers)).take max_papers

/-- `CustomThemeSearch.search_by_theme` (lines 52-115), with the two
providers passed in as response oracles indexed by keyword. -/
def search_by_theme (primary fallback0 : String → Except Unit (List PaperDict))
    (keywords : List String) (max_papers : Nat) : List PaperDict :=
  customThemeOutput
    (keywords.foldl
      (fun acc kw => acc ++ (searchByThemeKeyword (primary kw) (fallback0 kw)).1)
      [])
    max_papers

/-! ## The single-paper-per-day scheduler (`src/scheduler/daily_scheduler.py`) -/

/-- `paper.get('paper_id') or paper.get('semantic_scholar_id')`
(line 69): the falsy empty string falls through to the Semantic Scholar id. -/
def lookupId (p : PaperDict) : String :=
  if p.paper_id != "" then p.paper_id else p.semantic_scholar_id

/-- The duplicate pre-check of `fetch_and_store_papers` (lines 68-74): a
candidate is new when it has a truthy lookup id and
`get_by_paper_id(paper_id, source)` finds nothing — a check scoped to the
candidate's `source` when that is truthy. -/
def schedulerCandidateOk (store : Store) (p : PaperDict) : Bool :=
  lookupId p != "" && (get_by_paper_id store (lookupId p) p.source).isNone

/-- The `new_papers_to_add` list of `fetch_and_store_papers`
(lines 61-74): top 100 candidates filtered by the pre-check. -/
def newPapersToAdd (papers : List PaperDict) (store : Store) :
    List PaperDict :=
  (papers.take 100).filter (schedulerCandidateOk store)

/-- `DailyPaperScheduler.fetch_and_store_papers` (lines 45-105), from the
point where the fetched candidate list is known: add only the first new
candidate; a storage error on the insert is caught and reported as zero
papers added. Returns the store and the `new_papers` count. -/
def fetch_and_store_papers (papers : List PaperDict) (store : Store) :
    Store × Nat :=
  match newPapersToAdd papers store with
  | [] => (store, 0)
  | t :: _ =>
    match add_paper store t with
    | Except.ok store2 => (store2, 1)
    | Except.error _ => (store, 0)

/-! ## The Dedupe Maintenance job

`PaperRepository.deduplicate` and `ensure_unique_paper_id_index` are called
by `scripts/dedupe_papers.py` and exercised by `tests/test_dedupe_repository.py`
but their bodies are not part of the provided sources, so they are modelled
from the spec (§4.4). -/

/-- Modelled from the spec: canonical identifier space — "arXiv ids are
canonicalized by stripping version suffixes, e.g. 2401.12345v2 →
2401.12345" (§3); the stripping convention `split('v')[0]` follows
`get_paper_by_arxiv_id` in `semantic_scholar_scraper.py`. -/
def normalizeExternalId (source ext : String) : String :=
  if source == "arxiv" then beforeFirstV ext else ext

/-- `a` is kept in preference to `b`: strictly later `fetched_at`, ties
broken toward the larger surrogate `id` (§4.4 tie-break rule). -/
def laterRecord (a b : PaperRow) : Bool :=
  b.fetched_at < a.fetched_at ||
    (a.fetched_at == b.fetched_at && b.id < a.id)

/-- Two rows fall in the same phase-1 group: same `source` and equal
normalized external ids (rows without a `paper_id` are grouped with
nothing). -/
def sameIdKey (a b : PaperRow) : Bool :=
  a.source == b.source &&
    match a.paper_id, b.paper_id with
    | some x, some y => normalizeExternalId a.source x == normalizeExternalId b.source y
    | _, _ => false

/-- Two rows fall in the same phase-2 group: equal normalized titles. -/
def sameTitleKey (a b : PaperRow) : Bool :=
  normalizeTitle a.title == normalizeTitle b.title

/-- A row survives a dedupe pass over `l` when no row of its group beats it. -/
def keepLatest (key : PaperRow → PaperRow → Bool) (l : List PaperRow)
    (r : PaperRow) : Bool :=
  l.all (fun s => !(key r s) || !(laterRecord s r))

/-- One dedupe pass: delete every row beaten by a same-group row. -/
def removeDuplicates (key : PaperRow → PaperRow → Bool) (l : List PaperRow) :
    List PaperRow :=
  l.filter (keepLatest key l)

/-- Modelled from the spec: `PaperRepository.deduplicate` (§4.4 steps 1-2) —
collapse duplicates first by normalized external id within `source`, then by
normalized title among the remaining rows, keeping the latest `fetched_at`
(ties toward the larger id), and report the two removal counts. -/
def deduplicate (store : Store) : Store × Nat × Nat :=
  (removeDuplicates sameTitleKey (removeDuplicates sameIdKey store),
   (store.filter (fun r => !(keepLatest sameIdKey store r))).length,
   ((removeDuplicates sameIdKey store).filter
     (fun r =>
       !(keepLatest sameTitleKey (removeDuplicates sameIdKey store) r))).length)

/-- Modelled from the spec: `PaperRepository.ensure_unique_paper_id_index`
(§4.4 step 3) — install the uniqueness index if absent, reporting whether it
was newly created; running twice is harmless. -/
def ensure_unique_paper_id_index (indexPresent : Bool) : Bool :=
  !indexPresent

/-- Summary printed by `scripts/dedupe_papers.py`. -/
structure DedupeSummary where
  removed_by_paper_id : Nat
  removed_by_title : Nat
  index_created : Bool
  total_after : Nat
  deriving Repr, DecidableEq

/-- `run_dedupe` of `scripts/dedupe_papers.py` (lines 14-37). -/
def run_dedupe (store : Store) (indexPresent : Bool) :
    Store × DedupeSummary :=
  let d := deduplicate store
  (d.1,
   { removed_by_paper_id := d.2.1
     removed_by_title := d.2.2
     index_created := ensure_unique_paper_id_index indexPresent
     total_after := d.1.length })

/-! ## Reachable store states -/

/-- Store states reachable through the repository: the empty table, a
successful `add_paper`, or a row deletion (the maintenance job is the only
deleter). -/
inductive Reachable : Store → Prop where
  | empty : Reachable []
  | add (store : Store) (p : PaperDict) (store2 : Store) :
      Reachable store → add_paper store p = Except.ok store2 → Reachable store2
  | delete (store : Store) (r : PaperRow) :
      Reachable store → Reachable (store.erase r)

/-! ## Theorems -/

/-- The intake step skips a candidate whose `paper_id` is already stored,
counting it as duplicate. -/
theorem dailyFetchStep_skip (st : IntakeState) (p : PaperDict)
    (h : existsPaper st.store p.paper_id = true) :
    dailyFetchStep st p = { st with dupCount := st.dupCount + 1 } := by
  simp [dailyFetchStep, h]

/-- The intake step inserts a candidate whose `paper_id` is not stored. -/
theorem dailyFetchStep_insert (st : IntakeState) (p : PaperDict)
    (h : existsPaper st.store p.paper_id = false) :
    dailyFetchStep st p =
      { st with store := st.store ++ [mkRow st.store p],
                newCount := st.newCount + 1 } := by
  unfold existsPaper at h
  simp [dailyFetchStep, existsPaper, add_paper, commitRow, mkRow, h]

/-- The `_get_with_retry` loop body in isolation, over an abstract attempt
that may raise: at most 3 attempts, successive sleep delays of 5 seconds
doubled per attempt, `none` after exhaustion. This is the policy the loop
would implement — `retry_backoff_dead_on_transient` below shows its retry
branch is dead for the attempt the program actually passes in. -/
theorem retry_exponential_backoff (f : Nat → Except Unit (Option PaperDict)) :
    (getWithRetry f).2.2 ≤ 3 ∧
    (getWithRetry f).2.1 =
      (List.range (getWithRetry f).2.1.length).map (fun i => 2 ^ i * 5) ∧
    (getWithRetry f).2.1.length + 1 = (getWithRetry f).2.2 ∧
    ((∀ j, j < 3 → f j = Except.error ()) →
      (getWithRetry f).1 = none ∧ (getWithRetry f).2.2 = 3) := by
  rcases h0 : f 0 with e0 | r0
  · rcases h1 : f 1 with e1 | r1
    · rcases h2 : f 2 with e2 | r2
      · refine ⟨?_, ?_, ?_, fun _ => ?_⟩ <;>
          simp [getWithRetry, retryLoop, h0, h1, h2, List.range_succ]
      · refine ⟨?_, ?_, ?_, fun h => ?_⟩
        · simp [getWithRetry, retryLoop, h0, h1, h2]
        · simp [getWithRetry, retryLoop, h0, h1, h2, List.range_succ]
        · simp [getWithRetry, retryLoop, h0, h1, h2]
        · rw [h 2 (by omega)] at h2; exact absurd h2 (by simp)
    · refine ⟨?_, ?_, ?_, fun h => ?_⟩
      · simp [getWithRetry, retryLoop, h0, h1]
      · simp [getWithRetry, retryLoop, h0, h1, List.range_succ]
      · simp [getWithRetry, retryLoop, h0, h1]
      · rw [h 1 (by omega)] at h1; exact absurd h1 (by simp)
  · refine ⟨?_, ?_, ?_, fun h => ?_⟩
    · simp [getWithRetry, retryLoop, h0]
    · simp [getWithRetry, retryLoop, h0]
    · simp [getWithRetry, retryLoop, h0]
    · rw [h 0 (by omega)] at h0; exact absurd h0 (by simp)

/-- `retry_exponential_backoff` at a concrete input: an always-raising
abstract attempt makes exactly 3 attempts, sleeps 5 then 10 seconds, and
returns `none`. -/
theorem retry_exponential_backoff_witness :
    (∀ j, j < 3 → (fun _ => (Except.error () : Except Unit (Option PaperDict))) j
        = Except.error ()) ∧
    (getWithRetry (fun _ => Except.error ())).1 = none ∧
    (getWithRetry (fun _ => Except.error ())).2.2 = 3 :=
  ⟨fun _ _ => rfl,
   (retry_exponential_backoff (fun _ => Except.error ())).2.2.2
     (fun _ _ => rfl)⟩

/-- C6: the claimed exponential-backoff retry never happens on a transient
provider failure. Each attempt of `_get_with_retry` is
`get_paper_by_arxiv_id`, whose catch-all `except` turns every timeout,
429 and 5xx into `None` instead of raising, so the loop's retry branch is
dead: under a persistent 429 the call makes exactly one attempt, sleeps no
backoff delay and returns `None` immediately — and in general the call is a
single attempt returning whatever the first request produced. -/
theorem retry_backoff_dead_on_transient :
    getWithRetryHttp (fun it => Except.ok (ssNormalizePaper it 0))
        (fun _ => PaperResponse.httpError 429) = (none, [], 1) ∧
    (∀ (norm : SSItem → Except Unit PaperDict)
        (responses : Nat → PaperResponse),
      getWithRetryHttp norm responses =
        (get_paper_by_arxiv_id norm (responses 0), [], 1)) :=
  ⟨rfl, fun norm responses => rfl⟩

/-- C4: per keyword, `search_by_theme` queries the fallback provider exactly
when the primary raised or returned zero results; when the primary returns a
non-empty list, that list is the keyword's whole contribution and the
fallback is not queried. -/
theorem fallback_short_circuit (primary fallback0 : Except Unit (List PaperDict)) :
    ((searchByThemeKeyword primary fallback0).2 = true ↔
      primary = Except.error () ∨ primary = Except.ok []) ∧
    (∀ ps, primary = Except.ok ps → ps ≠ [] →
      searchByThemeKeyword primary fallback0 = (ps, false)) := by
  constructor
  · rcases primary with e | ps
    · cases e
      rcases fallback0 with e2 | qs <;> simp [searchByThemeKeyword]
    · rcases ps with _ | ⟨p0, ps0⟩
      · rcases fallback0 with e2 | qs <;> simp [searchByThemeKeyword]
      · simp [searchByThemeKeyword]
  · intro qs hq hne
    subst hq
    rcases qs with _ | ⟨q0, qs0⟩
    · exact absurd rfl hne
    · simp [searchByThemeKeyword]

/-- Witness for `fallback_short_circuit`: with a primary returning one
record, the contribution is that record and the fallback is not queried. -/
theorem fallback_short_circuit_witness :
    searchByThemeKeyword
        (Except.ok [{ title := "Quantum Speedup", paper_id := "a",
                      source := "semantic_scholar" }])
        (Except.ok []) =
      ([{ title := "Quantum Speedup", paper_id := "a",
          source := "semantic_scholar" }], false) :=
  (fallback_short_circuit _ _).2 _ rfl (by simp)

/-- C2 counterexample: the intake loop of `scripts/daily_fetch.py` does not
consult titles. A stored row titled `"Test Title"` (paper_id `"A"`) does not
stop a candidate titled `" test  title "` with the fresh paper_id `"B"`:
the candidate is inserted, not classified as duplicate, leaving two stored
rows with the same normalized title. -/
theorem intake_title_dedup_counterexample :
    normalizeTitle " test  title " = normalizeTitle "Test Title" ∧
    (dailyFetchIntake
        [{ title := " test  title ", paper_id := "B", source := "arxiv" }]
        [⟨1, "Test Title", some "A", "scholar", 0, 0⟩]).dupCount = 0 ∧
    ((dailyFetchIntake
        [{ title := " test  title ", paper_id := "B", source := "arxiv" }]
        [⟨1, "Test Title", some "A", "scholar", 0, 0⟩]).store.map
      (fun r => normalizeTitle r.title)) = ["test title", "test title"] := by
  decide

/-- C2 amended: intake classifies a candidate as duplicate (and skips it)
exactly when its `paper_id` is already stored — regardless of `source` and
without any title lookup; otherwise the candidate is inserted. -/
theorem intake_dedup_by_paper_id_only (st : IntakeState) (p : PaperDict) :
    (existsPaper st.store p.paper_id = true →
      dailyFetchStep st p = { st with dupCount := st.dupCount + 1 }) ∧
    (existsPaper st.store p.paper_id = false →
      dailyFetchStep st p =
        { st with store := st.store ++ [mkRow st.store p],
                  newCount := st.newCount + 1 }) :=
  ⟨dailyFetchStep_skip st p, dailyFetchStep_insert st p⟩

/-- Witness for `intake_dedup_by_paper_id_only`: a candidate with a fresh id
is inserted. -/
theorem intake_dedup_by_paper_id_only_witness :
    existsPaper ([⟨1, "Test Title", some "A", "scholar", 0, 0⟩] : Store) "B"
        = false ∧
    dailyFetchStep
        ⟨[⟨1, "Test Title", some "A", "scholar", 0, 0⟩], 0, 0⟩
        { title := " test  title ", paper_id := "B", source := "arxiv" } =
      ⟨[⟨1, "Test Title", some "A", "scholar", 0, 0⟩,
        ⟨2, " test  title ", some "B", "arxiv", 0, 0⟩], 1, 0⟩ := by
  refine ⟨by decide, ?_⟩
  have h := (intake_dedup_by_paper_id_only
      ⟨[⟨1, "Test Title", some "A", "scholar", 0, 0⟩], 0, 0⟩
      { title := " test  title ", paper_id := "B", source := "arxiv" }).2
      (by decide)
  simpa using h

/-- C3 counterexample: arXiv ids are not canonicalized — `_normalize_paper`
keeps the version suffix, the store's id check uses literal equality, so the
`v1` and `v2` records of the same paper get distinct paper_ids and intake
stores both. -/
theorem arxiv_version_counterexample :
    (arxivNormalizePaper
        ⟨"http://arxiv.org/abs/2401.12345v1", "Quantum Speedup"⟩ 0).paper_id
      = "2401.12345v1" ∧
    (arxivNormalizePaper
        ⟨"http://arxiv.org/abs/2401.12345v2", "Quantum Speedup"⟩ 1).paper_id
      = "2401.12345v2" ∧
    existsPaper
        (dailyFetchIntake
          [arxivNormalizePaper ⟨"http://arxiv.org/abs/2401.12345v1",
            "Quantum Speedup"⟩ 0] []).store
        (arxivNormalizePaper ⟨"http://arxiv.org/abs/2401.12345v2",
          "Quantum Speedup"⟩ 1).paper_id = false ∧
    (dailyFetchIntake
        [arxivNormalizePaper ⟨"http://arxiv.org/abs/2401.12345v1",
           "Quantum Speedup"⟩ 0,
         arxivNormalizePaper ⟨"http://arxiv.org/abs/2401.12345v2",
           "Quantum Speedup"⟩ 1] []).store.length = 2 := by
  decide

/-- C3 amended: the arXiv adapter stores the id verbatim (version suffix
included) and identity comparison is literal string equality, so records
whose ids differ only in the version suffix are treated as distinct papers:
any candidate whose exact id is absent is inserted as new. -/
theorem arxiv_version_kept_distinct :
    (∀ (t : String) (now : Nat),
      (arxivNormalizePaper
          ⟨"http://arxiv.org/abs/2401.12345v1", t⟩ now).paper_id
        = "2401.12345v1") ∧
    (∀ (t : String) (now : Nat),
      (arxivNormalizePaper
          ⟨"http://arxiv.org/abs/2401.12345v2", t⟩ now).paper_id
        = "2401.12345v2") ∧
    (∀ (store : Store) (p : PaperDict),
      existsPaper store p.paper_id = false →
      (dailyFetchIntake [p] store).store = store ++ [mkRow store p] ∧
      (dailyFetchIntake [p] store).newCount = 1) := by
  refine ⟨fun t now => rfl, fun t now => rfl, fun store p h => ?_⟩
  have h2 := dailyFetchStep_insert ⟨store, 0, 0⟩ p h
  constructor <;> simp [dailyFetchIntake, h2]

/-- Witness for `arxiv_version_kept_distinct`: the `v2` record is inserted
into a store already holding the `v1` record. -/
theorem arxiv_version_kept_distinct_witness :
    existsPaper ([⟨1, "Quantum Speedup", some "2401.12345v1", "arxiv", 0, 0⟩] :
        Store) "2401.12345v2" = false ∧
    (dailyFetchIntake
        [{ title := "Quantum Speedup", paper_id := "2401.12345v2",
           source := "arxiv", fetched_at := 1 }]
        [⟨1, "Quantum Speedup", some "2401.12345v1", "arxiv", 0, 0⟩]).store.length
      = 2 := by
  refine ⟨by decide, ?_⟩
  have h := (arxiv_version_kept_distinct).2.2
    [⟨1, "Quantum Speedup", some "2401.12345v1", "arxiv", 0, 0⟩]
    { title := "Quantum Speedup", paper_id := "2401.12345v2",
      source := "arxiv", fetched_at := 1 } (by decide)
  simp [h.1]

/-- `add_paper` succeeds exactly when the candidate's `paper_id` is not yet
stored (in any source), in which case the new row is appended. -/
theorem add_paper_eq (store : Store) (p : PaperDict) :
    add_paper store p =
      if existsPaper store p.paper_id then Except.error ()
      else Except.ok (store ++ [mkRow store p]) := by
  simp [add_paper, commitRow, mkRow, existsPaper]

/-- `insertByCitationsDesc` inserts its element somewhere in the list. -/
theorem insertByCitationsDesc_perm (p : PaperDict) (l : List PaperDict) :
    (insertByCitationsDesc p l).Perm (p :: l) := by
  induction l with
  | nil => simp [insertByCitationsDesc]
  | cons q qs ih =>
    by_cases h : q.citation_count ≤ p.citation_count
    · simp [insertByCitationsDesc, h]
    · simp only [insertByCitationsDesc, if_neg h]
      exact (ih.cons q).trans (List.Perm.swap p q qs)

/-- The sort produced by `sortByCitationsDesc` is a permutation of its
input. -/
theorem sortByCitationsDesc_perm (l : List PaperDict) :
    (sortByCitationsDesc l).Perm l := by
  induction l with
  | nil => simp [sortByCitationsDesc]
  | cons p ps ih => exact (insertByCitationsDesc_perm p _).trans (ih.cons p)

/-- Inserting preserves the non-increasing citation order. -/
theorem insertByCitationsDesc_pairwise (p : PaperDict) (l : List PaperDict)
    (h : l.Pairwise (fun a b => b.citation_count ≤ a.citation_count)) :
    (insertByCitationsDesc p l).Pairwise
      (fun a b => b.citation_count ≤ a.citation_count) := by
  induction l with
  | nil => simp [insertByCitationsDesc]
  | cons q qs ih =>
    rcases List.pairwise_cons.mp h with ⟨hq, hqs⟩
    by_cases hc : q.citation_count ≤ p.citation_count
    · simp only [insertByCitationsDesc, if_pos hc]
      refine List.pairwise_cons.mpr ⟨?_, h⟩
      intro x hx
      rcases List.mem_cons.mp hx with rfl | hx
      · exact hc
      · exact le_trans (hq x hx) hc
    · simp only [insertByCitationsDesc, if_neg hc]
      refine List.pairwise_cons.mpr ⟨?_, ih hqs⟩
      intro x hx
      rcases List.mem_cons.mp
          ((insertByCitationsDesc_perm p qs).mem_iff.mp hx) with rfl | hx
      · omega
      · exact hq x hx

/-- `sortByCitationsDesc` sorts by citation count, descending. -/
theorem sortByCitationsDesc_pairwise (l : List PaperDict) :
    (sortByCitationsDesc l).Pairwise
      (fun a b => b.citation_count ≤ a.citation_count) := by
  induction l with
  | nil => simp [sortByCitationsDesc]
  | cons p ps ih => exact insertByCitationsDesc_pairwise p _ ih

/-- Stability of the insertion step: the sublist of records with any fixed
citation count is preserved up to the inserted element going first. -/
theorem insertByCitationsDesc_filter (p : PaperDict) (l : List PaperDict)
    (k : Nat) :
    (insertByCitationsDesc p l).filter (fun q => q.citation_count == k) =
      if p.citation_count == k then
        p :: l.filter (fun q => q.citation_count == k)
      else l.filter (fun q => q.citation_count == k) := by
  induction l with
  | nil =>
    rcases hp : (p.citation_count == k) with _ | _ <;>
      simp [insertByCitationsDesc, List.filter, hp]
  | cons q qs ih =>
    by_cases hc : q.citation_count ≤ p.citation_count
    · simp only [insertByCitationsDesc, if_pos hc]
      rcases hp : (p.citation_count == k) with _ | _ <;>
        simp [List.filter_cons, hp]
    · simp only [insertByCitationsDesc, if_neg hc]
      rcases hp : (p.citation_count == k) with _ | _
      · simp [List.filter_cons, ih, hp]
      · have hpk : p.citation_count = k := by simpa using hp
        have hqk : (q.citation_count == k) = false := by
          have : q.citation_count ≠ k := by omega
          simpa using this
        simp [List.filter_cons, ih, hp, hqk]

/-- Stability of the whole sort: records with equal citation counts keep
their original relative order (their sublist is unchanged). -/
theorem sortByCitationsDesc_filter (l : List PaperDict) (k : Nat) :
    (sortByCitationsDesc l).filter (fun q => q.citation_count == k) =
      l.filter (fun q => q.citation_count == k) := by
  induction l with
  | nil => rfl
  | cons p ps ih =>
    rcases hp : (p.citation_count == k) with _ | _ <;>
      simp [sortByCitationsDesc, insertByCitationsDesc_filter, hp,
        List.filter_cons, ih]

/-- C7 counterexample: the aggregator sort ignores `fetched_at`. Python's
stable sort keeps equal-citation records in input order, so with equal
citation counts the later-fetched record stays first when it arrived
first — the claimed earlier-`fetched_at`-first tie-break does not hold. -/
theorem ranking_fetched_tiebreak_counterexample :
    customThemeOutput
        [{ title := "A", paper_id := "a", source := "semantic_scholar",
           citation_count := 5, fetched_at := 10 },
         { title := "B", paper_id := "b", source := "semantic_scholar",
           citation_count := 5, fetched_at := 3 }] 5 =
      [{ title := "A", paper_id := "a", source := "semantic_scholar",
         citation_count := 5, fetched_at := 10 },
       { title := "B", paper_id := "b", source := "semantic_scholar",
         citation_count := 5, fetched_at := 3 }] ∧
    ({ title := "A", paper_id := "a", source := "semantic_scholar",
       citation_count := 5, fetched_at := 10 } : PaperDict).citation_count =
      ({ title := "B", paper_id := "b", source := "semantic_scholar",
         citation_count := 5, fetched_at := 3 } : PaperDict).citation_count ∧
    ({ title := "B", paper_id := "b", source := "semantic_scholar",
       citation_count := 5, fetched_at := 3 } : PaperDict).fetched_at <
      ({ title := "A", paper_id := "a", source := "semantic_scholar",
         citation_count := 5, fetched_at := 10 } : PaperDict).fetched_at := by
  decide

/-- C7 amended: the aggregator output is sorted by `citation_count`
descending, with ties kept in first-seen input order (`fetched_at` is not
consulted); for counts [10, 100, 50] the output order is [100, 50, 10]. -/
theorem ranking_citations_desc_stable :
    (∀ (papers : List PaperDict) (max_papers : Nat),
      (customThemeOutput papers max_papers).Pairwise
        (fun a b => b.citation_count ≤ a.citation_count)) ∧
    (∀ (papers : List PaperDict) (k : Nat),
      (sortByCitationsDesc (dedupById papers)).filter
          (fun q => q.citation_count == k) =
        (dedupById papers).filter (fun q => q.citation_count == k)) ∧
    (customThemeOutput
        [{ title := "P1", paper_id := "p1", source := "semantic_scholar",
           citation_count := 10, fetched_at := 4 },
         { title := "P2", paper_id := "p2", source := "semantic_scholar",
           citation_count := 100, fetched_at := 4 },
         { title := "P3", paper_id := "p3", source := "semantic_scholar",
           citation_count := 50, fetched_at := 4 }] 5).map
      (fun p => p.citation_count) = [100, 50, 10] := by
  refine ⟨?_, ?_, by decide⟩
  · intro papers max_papers
    exact List.Pairwise.sublist (List.take_sublist _ _)
      (sortByCitationsDesc_pairwise _)
  · intro papers k
    exact sortByCitationsDesc_filter _ k

/-- C9 counterexample: the Semantic Scholar adapter does not reject empty
titles — an upstream item with no title normalizes to a record whose title
is the empty string, and `search` returns it downstream. -/
theorem ss_empty_title_counterexample :
    ssSearch (fun x => Except.ok (ssNormalizePaper x 0))
        (ApiResult.ok [{ paperId := "SS1", citationCount := 3 }]) =
      [ssNormalizePaper { paperId := "SS1", citationCount := 3 } 0] ∧
    (ssNormalizePaper { paperId := "SS1", citationCount := 3 } 0).title
      = "" := by
  decide

/-- C9 amended: only the OpenAlex adapter rejects empty titles (its `search`
keeps a record only when the title is truthy); the Semantic Scholar adapter
defaults a missing title to the empty string and returns the record
anyway. -/
theorem adapter_title_handling :
    (∀ (norm : OAItem → Except Unit PaperDict) (resp : ApiResult OAItem)
        (p : PaperDict), p ∈ oaSearch norm resp → p.title ≠ "") ∧
    (∀ (it : SSItem) (now : Nat), it.title = none →
      (ssNormalizePaper it now).title = "") ∧
    (∀ (it : SSItem) (now : Nat),
      ssSearch (fun x => Except.ok (ssNormalizePaper x now))
        (ApiResult.ok [it]) = [ssNormalizePaper it now]) := by
  refine ⟨?_, ?_, fun it now => rfl⟩
  · intro norm resp p hp
    rcases resp with _ | st | items
    · simp [oaSearch] at hp
    · simp [oaSearch] at hp
    · simp only [oaSearch] at hp
      rcases List.mem_filterMap.mp hp with ⟨it, _, hit⟩
      rcases hn : norm it with e | q
      · rw [hn] at hit
        exact absurd hit (by simp)
      · rw [hn] at hit
        by_cases ht : q.title = ""
        · simp [ht] at hit
        · have hqp : q = p := by simpa [ht] using hit
          subst hqp
          exact ht
  · intro it now h
    simp [ssNormalizePaper, h]

/-- Witness for `adapter_title_handling`: a record returned by the OpenAlex
search has a non-empty title, and a title-less Semantic Scholar item yields
an empty-titled record. -/
theorem adapter_title_handling_witness :
    ({ title := "Robots", paper_id := "W1", source := "openalex" } :
        PaperDict).title ≠ "" ∧
    (ssNormalizePaper { paperId := "SS1" } 0).title = "" :=
  ⟨adapter_title_handling.1
      (fun _ => Except.ok
        { title := "Robots", paper_id := "W1", source := "openalex" })
      (ApiResult.ok [{ id := "W1" }]) _ (by decide),
   adapter_title_handling.2.1 { paperId := "SS1" } 0 rfl⟩

/-- C5 counterexample: a transport failure in the middle of the arXiv result
stream does not make `search` return the empty sequence — the records
normalized before the failure are returned (here one record, after a
failure while fetching the next page). -/
theorem arxiv_partial_results_counterexample :
    arxivSearch (fun x => Except.ok (arxivNormalizePaper x 0))
        [⟨"http://arxiv.org/abs/2401.00001v1", "Paper One"⟩] true =
      [arxivNormalizePaper
        ⟨"http://arxiv.org/abs/2401.00001v1", "Paper One"⟩ 0] ∧
    arxivSearch (fun x => Except.ok (arxivNormalizePaper x 0))
        [⟨"http://arxiv.org/abs/2401.00001v1", "Paper One"⟩] true ≠ [] := by
  decide

/-- C5 amended: no adapter `search` raises (they are total functions into
record lists); a whole-request transport failure or non-200 status yields
the empty list for the Semantic Scholar and OpenAlex adapters; the streaming
arXiv and Scholar adapters yield the records normalized before a failure
(empty when it precedes the first result); a malformed record is skipped
without affecting the records around it. -/
theorem adapter_failure_semantics :
    (∀ (norm : SSItem → Except Unit PaperDict) (status : Nat),
      ssSearch norm ApiResult.transportError = [] ∧
      ssSearch norm (ApiResult.httpError status) = []) ∧
    (∀ (norm : OAItem → Except Unit PaperDict) (status : Nat),
      oaSearch norm ApiResult.transportError = [] ∧
      oaSearch norm (ApiResult.httpError status) = []) ∧
    (∀ (norm : ArxivResult → Except Unit PaperDict) (failed : Bool),
      arxivSearch norm [] failed = []) ∧
    (∀ (norm : ScholarItem → Except Unit PaperDict) (failed : Bool)
        (max_results : Nat), scholarSearch norm [] failed max_results = []) ∧
    (∀ (norm : ArxivResult → Except Unit PaperDict)
        (ys zs : List ArxivResult) (bad : ArxivResult) (failed : Bool),
      norm bad = Except.error () →
      arxivSearch norm (ys ++ bad :: zs) failed =
        arxivSearch norm ys failed ++ arxivSearch norm zs failed) ∧
    (∀ (norm : SSItem → Except Unit PaperDict) (ys zs : List SSItem)
        (bad : SSItem), norm bad = Except.error () →
      ssSearch norm (ApiResult.ok (ys ++ bad :: zs)) =
        ssSearch norm (ApiResult.ok ys) ++ ssSearch norm (ApiResult.ok zs)) := by
  refine ⟨fun norm status => ⟨rfl, rfl⟩, fun norm status => ⟨rfl, rfl⟩,
    fun norm failed => rfl, fun norm failed m => by simp [scholarSearch, collectNormalized],
    ?_, ?_⟩
  · intro norm ys zs bad failed h
    simp [arxivSearch, collectNormalized, List.filterMap_append,
      List.filterMap_cons, h, Except.toOption]
  · intro norm ys zs bad h
    simp [ssSearch, collectNormalized, List.filterMap_append,
      List.filterMap_cons, h, Except.toOption]

/-- Witness for `adapter_failure_semantics`: a malformed middle item is
skipped, the records before and after it are unaffected. -/
theorem adapter_failure_semantics_witness :
    (fun it : SSItem =>
        if it.paperId == "" then Except.error ()
        else Except.ok (ssNormalizePaper it 0)) { paperId := "" }
      = Except.error () ∧
    ssSearch
        (fun it : SSItem =>
          if it.paperId == "" then Except.error ()
          else Except.ok (ssNormalizePaper it 0))
        (ApiResult.ok [{ paperId := "a" }, { paperId := "" },
          { paperId := "b" }]) =
      ssSearch
          (fun it : SSItem =>
            if it.paperId == "" then Except.error ()
            else Except.ok (ssNormalizePaper it 0))
          (ApiResult.ok [{ paperId := "a" }]) ++
        ssSearch
          (fun it : SSItem =>
            if it.paperId == "" then Except.error ()
            else Except.ok (ssNormalizePaper it 0))
          (ApiResult.ok [{ paperId := "b" }]) :=
  ⟨rfl,
   adapter_failure_semantics.2.2.2.2.2 _ [{ paperId := "a" }]
     [{ paperId := "b" }] { paperId := "" } rfl⟩

/-- C8 counterexample: the scheduler's duplicate pre-check is scoped to
`(paper_id, source)` while the store constraint is global on `paper_id`.
With `"X"` stored under `semantic_scholar`, the candidate list
`[X@arxiv (100 cites), Y@arxiv (50 cites)]` selects `X@arxiv`, whose insert
fails on the unique constraint — so nothing is inserted even though the
candidate `Y`, whose identifier is absent from the store, exists. -/
theorem single_paper_insert_counterexample :
    fetch_and_store_papers
        [{ title := "T2", paper_id := "X", source := "arxiv",
           citation_count := 100 },
         { title := "T3", paper_id := "Y", source := "arxiv",
           citation_count := 50 }]
        [⟨1, "T1", some "X", "semantic_scholar", 100, 0⟩] =
      ([⟨1, "T1", some "X", "semantic_scholar", 100, 0⟩], 0) ∧
    existsPaper [⟨1, "T1", some "X", "semantic_scholar", 100, 0⟩] "Y"
      = false ∧
    schedulerCandidateOk [⟨1, "T1", some "X", "semantic_scholar", 100, 0⟩]
      { title := "T3", paper_id := "Y", source := "arxiv",
        citation_count := 50 } = true := by
  decide

/-- C8 amended: one invocation of `fetch_and_store_papers` inserts at most
one record — the first of the top-100 candidates whose `(identifier, source)`
pair is not already stored; the insert succeeds exactly when that
candidate's identifier is globally absent, and when no candidate passes the
pre-check the store is returned unchanged with zero inserted. -/
theorem single_paper_per_day (papers : List PaperDict) (store : Store) :
    (fetch_and_store_papers papers store).2 ≤ 1 ∧
    ((fetch_and_store_papers papers store).2 = 0 →
      (fetch_and_store_papers papers store).1 = store) ∧
    (newPapersToAdd papers store = [] →
      fetch_and_store_papers papers store = (store, 0)) ∧
    (∀ t ts, newPapersToAdd papers store = t :: ts →
      (existsPaper store t.paper_id = false →
        fetch_and_store_papers papers store = (store ++ [mkRow store t], 1)) ∧
      (existsPaper store t.paper_id = true →
        fetch_and_store_papers papers store = (store, 0))) := by
  rcases hnew : newPapersToAdd papers store with _ | ⟨t, ts⟩
  · refine ⟨?_, ?_, fun _ => ?_, ?_⟩
    · simp [fetch_and_store_papers, hnew]
    · simp [fetch_and_store_papers, hnew]
    · simp [fetch_and_store_papers, hnew]
    · intro u us hu
      exact absurd hu (by simp)
  · rcases he : existsPaper store t.paper_id with _ | _
    · have hres : fetch_and_store_papers papers store =
          (store ++ [mkRow store t], 1) := by
        simp [fetch_and_store_papers, hnew, add_paper_eq, he]
      refine ⟨by simp [hres], by simp [hres], fun h => absurd h (by simp), ?_⟩
      intro u us hu
      injection hu with h1 h2
      subst h1
      exact ⟨fun _ => hres,
        fun hcontra => by rw [hcontra] at he; exact Bool.noConfusion he⟩
    · have hres : fetch_and_store_papers papers store = (store, 0) := by
        simp [fetch_and_store_papers, hnew, add_paper_eq, he]
      refine ⟨by simp [hres], by simp [hres], fun h => absurd h (by simp), ?_⟩
      intro u us hu
      injection hu with h1 h2
      subst h1
      exact ⟨fun hcontra => by rw [hcontra] at he; exact Bool.noConfusion he,
        fun _ => hres⟩

/-- Witness for `single_paper_per_day`: a fresh candidate is inserted. -/
theorem single_paper_per_day_witness :
    newPapersToAdd
        [{ title := "T3", paper_id := "Y", source := "arxiv",
           citation_count := 50 }] [] =
      [{ title := "T3", paper_id := "Y", source := "arxiv",
         citation_count := 50 }] ∧
    fetch_and_store_papers
        [{ title := "T3", paper_id := "Y", source := "arxiv",
           citation_count := 50 }] [] =
      ([mkRow []
          { title := "T3", paper_id := "Y", source := "arxiv",
            citation_count := 50 }], 1) :=
  ⟨by decide,
   ((single_paper_per_day
        [{ title := "T3", paper_id := "Y", source := "arxiv",
           citation_count := 50 }] []).2.2.2
      { title := "T3", paper_id := "Y", source := "arxiv",
        citation_count := 50 } [] (by decide)).1 (by decide)⟩

/-- C10: the `paper_id` column's UNIQUE constraint is global — every
reachable store holds at most one row per `paper_id` string, and
`add_paper` is rejected whenever the candidate's id is stored, even under a
different `source`. -/
theorem paper_id_unique_constraint :
    (∀ store : Store, Reachable store → ∀ s : String,
      (store.filter (fun r => r.paper_id == some s)).length ≤ 1) ∧
    (∀ (store : Store) (p : PaperDict),
      existsPaper store p.paper_id = true →
      add_paper store p = Except.error ()) := by
  constructor
  · intro store h
    induction h with
    | empty => intro s; simp
    | add store0 p store2 h0 hadd ih =>
      intro s
      rw [add_paper_eq] at hadd
      rcases he : existsPaper store0 p.paper_id with _ | _
      · rw [he] at hadd
        simp at hadd
        subst hadd
        rw [List.filter_append]
        by_cases hs : p.paper_id = s
        · subst hs
          have hnone : store0.filter
              (fun r => r.paper_id == some p.paper_id) = [] := by
            rw [List.filter_eq_nil_iff]
            intro r hr hcon
            have hx : existsPaper store0 p.paper_id = true := by
              unfold existsPaper
              exact List.any_eq_true.mpr ⟨r, hr, hcon⟩
            rw [hx] at he
            exact Bool.noConfusion he
          simp [hnone, mkRow]
        · have hrow : List.filter (fun r => r.paper_id == some s)
              [mkRow store0 p] = [] := by
            simp [mkRow, hs]
          simpa [hrow] using ih s
      · rw [he] at hadd
        simp at hadd
    | delete store0 r h0 ih =>
      intro s
      exact le_trans
        (List.Sublist.length_le
          (List.Sublist.filter _ (List.erase_sublist r store0)))
        (ih s)
  · intro store p h
    rw [add_paper_eq, if_pos h]

/-- Witness for `paper_id_unique_constraint`: a one-insert store satisfies
the at-most-one invariant, and re-adding id "A" under another source is
rejected. -/
theorem paper_id_unique_constraint_witness :
    (∀ s : String,
      ((([] : Store) ++ [mkRow []
          { title := "T", paper_id := "A", source := "arxiv" }]).filter
        (fun r => r.paper_id == some s)).length ≤ 1) ∧
    add_paper
        (([] : Store) ++ [mkRow []
          { title := "T", paper_id := "A", source := "arxiv" }])
        { title := "U", paper_id := "A", source := "scholar" }
      = Except.error () :=
  ⟨paper_id_unique_constraint.1 _
      (Reachable.add [] { title := "T", paper_id := "A", source := "arxiv" }
        _ Reachable.empty (by rw [add_paper_eq]; rfl)),
   paper_id_unique_constraint.2 _
      { title := "U", paper_id := "A", source := "scholar" } (by decide)⟩

/-! ### The maintenance job's ordering facts -/

/-- `laterRecord` in propositional form. -/
theorem laterRecord_iff (a b : PaperRow) :
    laterRecord a b = true ↔
      b.fetched_at < a.fetched_at ∨
        (a.fetched_at = b.fetched_at ∧ b.id < a.id) := by
  simp [laterRecord]

theorem laterRecord_irrefl (a : PaperRow) : laterRecord a a = false := by
  simp [laterRecord]

theorem laterRecord_total (a b : PaperRow) (h : a.id ≠ b.id) :
    laterRecord a b = true ∨ laterRecord b a = true := by
  rw [laterRecord_iff, laterRecord_iff]
  omega

theorem laterRecord_asymm (a b : PaperRow) (h1 : laterRecord a b = true)
    (h2 : laterRecord b a = true) : False := by
  rw [laterRecord_iff] at h1 h2
  omega

theorem laterRecord_trans (a b c : PaperRow) (h1 : laterRecord a b = true)
    (h2 : laterRecord b c = true) : laterRecord a c = true := by
  rw [laterRecord_iff] at h1 h2 ⊢
  omega

theorem sameIdKey_symm (a b : PaperRow) (h : sameIdKey a b = true) :
    sameIdKey b a = true := by
  simp only [sameIdKey] at h ⊢
  rcases hx : a.paper_id with _ | x <;> rcases hy : b.paper_id with _ | y <;>
      simp only [hx, hy] at h ⊢ <;> simp at h ⊢
  obtain ⟨hs, hn⟩ := h
  rw [hs] at hn
  refine ⟨hs.symm, ?_⟩
  rw [hs]
  exact hn.symm

theorem sameIdKey_trans (a b c : PaperRow) (h1 : sameIdKey a b = true)
    (h2 : sameIdKey b c = true) : sameIdKey a c = true := by
  simp only [sameIdKey] at h1 h2 ⊢
  rcases hx : a.paper_id with _ | x <;> rcases hy : b.paper_id with _ | y <;>
      rcases hz : c.paper_id with _ | z <;>
      simp only [hx, hy, hz] at h1 h2 ⊢ <;> simp at h1 h2 ⊢
  obtain ⟨hs1, hn1⟩ := h1
  obtain ⟨hs2, hn2⟩ := h2
  refine ⟨hs1.trans hs2, ?_⟩
  rw [hs1] at hn1 ⊢
  exact hn1.trans hn2

theorem sameTitleKey_refl (a : PaperRow) : sameTitleKey a a = true := by
  simp [sameTitleKey]

theorem sameTitleKey_symm (a b : PaperRow) (h : sameTitleKey a b = true) :
    sameTitleKey b a = true := by
  simp [sameTitleKey] at h ⊢
  exact h.symm

theorem sameTitleKey_trans (a b c : PaperRow) (h1 : sameTitleKey a b = true)
    (h2 : sameTitleKey b c = true) : sameTitleKey a c = true := by
  simp [sameTitleKey] at h1 h2 ⊢
  exact h1.trans h2

/-- `keepLatest` in propositional form: a row survives when no same-group
row beats it. -/
theorem keepLatest_iff (key : PaperRow → PaperRow → Bool)
    (l : List PaperRow) (r : PaperRow) :
    keepLatest key l r = true ↔
      ∀ s ∈ l, key r s = true → laterRecord s r = false := by
  unfold keepLatest
  rw [List.all_eq_true]
  constructor
  · intro h s hs hk
    have h2 := h s hs
    simpa [hk] using h2
  · intro h s hs
    by_cases hk : key r s = true
    · simp [hk, h s hs hk]
    · simp only [Bool.not_eq_true] at hk
      simp [hk]

/-- Survival only depends on which rows the store holds, not their order. -/
theorem keepLatest_perm (key : PaperRow → PaperRow → Bool)
    {l l2 : List PaperRow} (h : l.Perm l2) (r : PaperRow) :
    keepLatest key l r = keepLatest key l2 r := by
  unfold keepLatest
  apply Bool.eq_iff_iff.mpr
  rw [List.all_eq_true, List.all_eq_true]
  constructor
  · intro hh x hx
    exact hh x (h.mem_iff.mpr hx)
  · intro hh x hx
    exact hh x (h.mem_iff.mp hx)

/-- In a store with pairwise-distinct surrogate ids, at most one row of each
group survives a pass. -/
theorem keepLatest_unique (key : PaperRow → PaperRow → Bool)
    (hsymm : ∀ a b, key a b = true → key b a = true)
    (l : List PaperRow) (hids : l.Pairwise (fun a b => a.id ≠ b.id))
    (s t : PaperRow) (hs : s ∈ l) (ht : t ∈ l) (hkey : key s t = true)
    (hks : keepLatest key l s = true) (hkt : keepLatest key l t = true) :
    s = t := by
  by_contra hne
  have hid : s.id ≠ t.id :=
    hids.forall (fun a b hab => (fun hba => hab hba.symm)) hs ht hne
  rcases laterRecord_total s t hid with hlat | hlat
  · have := (keepLatest_iff key l t).mp hkt s hs (hsymm s t hkey)
    rw [this] at hlat
    exact Bool.noConfusion hlat
  · have := (keepLatest_iff key l s).mp hks t ht hkey
    rw [this] at hlat
    exact Bool.noConfusion hlat

/-- Every non-empty list of rows with distinct ids has a row that beats all
the others. -/
theorem exists_latest :
    ∀ (l : List PaperRow), l.Pairwise (fun a b => a.id ≠ b.id) → l ≠ [] →
      ∃ m ∈ l, ∀ t ∈ l, t ≠ m → laterRecord m t = true := by
  intro l
  induction l with
  | nil => intro _ hne; exact absurd rfl hne
  | cons a as ih =>
    intro hids _
    rcases has : as with _ | ⟨b, bs⟩
    · refine ⟨a, by simp, ?_⟩
      intro t ht hta
      simp at ht
      exact absurd ht hta
    · rw [has] at ih hids
      obtain ⟨m, hm, hmax⟩ :=
        ih (List.pairwise_cons.mp hids).2 (by simp)
      by_cases ham : laterRecord a m = true
      · refine ⟨a, by simp, ?_⟩
        intro t ht hta
        rcases List.mem_cons.mp ht with rfl | ht2
        · exact absurd rfl hta
        · by_cases htm : t = m
          · subst htm; exact ham
          · exact laterRecord_trans a m t ham (hmax t ht2 htm)
      · have hid : a.id ≠ m.id := (List.pairwise_cons.mp hids).1 m hm
        have hma : laterRecord m a = true := by
          rcases laterRecord_total a m hid with hh | hh
          · exact absurd hh ham
          · exact hh
        refine ⟨m, List.mem_cons_of_mem a hm, ?_⟩
        intro t ht htm
        rcases List.mem_cons.mp ht with rfl | ht2
        · exact hma
        · exact hmax t ht2 htm

/-- Each group of a dedupe pass keeps exactly its latest row: the survivor
exists, belongs to the group, and beats every other group member. -/
theorem keepLatest_exists (key : PaperRow → PaperRow → Bool)
    (htrans : ∀ a b c, key a b = true → key b c = true → key a c = true)
    (l : List PaperRow) (hids : l.Pairwise (fun a b => a.id ≠ b.id))
    (r : PaperRow) (hr : r ∈ l) (hrr : key r r = true) :
    ∃ m ∈ l, key r m = true ∧ keepLatest key l m = true ∧
      ∀ t ∈ l, key r t = true → t ≠ m → laterRecord m t = true := by
  have hrg : r ∈ l.filter (fun s => key r s) := List.mem_filter.mpr ⟨hr, hrr⟩
  have hgne : l.filter (fun s => key r s) ≠ [] := by
    intro hcon
    rw [hcon] at hrg
    exact absurd hrg (by simp)
  have hgp : (l.filter (fun s => key r s)).Pairwise
      (fun a b => a.id ≠ b.id) :=
    List.Pairwise.sublist (List.filter_sublist l) hids
  obtain ⟨m, hmg, hmax⟩ := exists_latest _ hgp hgne
  have hm_mem : m ∈ l := (List.mem_filter.mp hmg).1
  have hrm : key r m = true := (List.mem_filter.mp hmg).2
  refine ⟨m, hm_mem, hrm, ?_, ?_⟩
  · rw [keepLatest_iff]
    intro s hs hks
    have hrs : key r s = true := htrans r m s hrm hks
    have hsg : s ∈ l.filter (fun u => key r u) :=
      List.mem_filter.mpr ⟨hs, hrs⟩
    by_cases hsm : s = m
    · subst hsm; exact laterRecord_irrefl s
    · rcases hlat : laterRecord s m with _ | _
      · rfl
      · exact (laterRecord_asymm m s (hmax s hsg hsm) hlat).elim
  · intro t ht hkrt htm
    exact hmax t (List.mem_filter.mpr ⟨ht, hkrt⟩) htm

/-- One dedupe pass commutes with reordering the store. -/
theorem removeDuplicates_perm (key : PaperRow → PaperRow → Bool)
    {l l2 : List PaperRow} (h : l.Perm l2) :
    (removeDuplicates key l).Perm (removeDuplicates key l2) := by
  unfold removeDuplicates
  have hcong : l2.filter (keepLatest key l2) = l2.filter (keepLatest key l) :=
    List.filter_congr (fun x _ => (keepLatest_perm key h.symm x))
  rw [hcong]
  exact h.filter (keepLatest key l)

/-- The per-pass removal count only depends on which rows the store holds. -/
theorem removedCount_perm (key : PaperRow → PaperRow → Bool)
    {l l2 : List PaperRow} (h : l.Perm l2) :
    (l.filter (fun r => !(keepLatest key l r))).length =
      (l2.filter (fun r => !(keepLatest key l2 r))).length := by
  have hcong : l2.filter (fun r => !(keepLatest key l2 r)) =
      l2.filter (fun r => !(keepLatest key l r)) :=
    List.filter_congr (fun x _ => by rw [keepLatest_perm key h.symm x])
  rw [hcong]
  exact (h.filter (fun r => !(keepLatest key l r))).length_eq

/-- The two complementary parts of a filtered list account for its whole
length. -/
theorem filter_not_length (l : List PaperRow) (f : PaperRow → Bool) :
    (l.filter (fun r => !(f r))).length + (l.filter f).length = l.length := by
  have h := List.length_eq_length_filter_add (l := l) f
  omega

/-- C1: the maintenance job removes, within each group sharing a normalized
external id (within one `source`) and then within each group of remaining
rows sharing a normalized title, every row except the one with the latest
`fetched_at` (ties toward the larger surrogate id); the two removal counts
account exactly for the deletions; and the outcome is the same for every
storage iteration order. -/
theorem dedupe_maintenance_correct (store : Store)
    (hids : store.Pairwise (fun a b => a.id ≠ b.id)) :
    (∀ r ∈ store, sameIdKey r r = true →
      ∃ m ∈ store, sameIdKey r m = true ∧
        m ∈ removeDuplicates sameIdKey store ∧
        ∀ t ∈ store, sameIdKey r t = true → t ≠ m →
          laterRecord m t = true) ∧
    (∀ s ∈ store, ∀ t ∈ store, sameIdKey s t = true →
      s ∈ removeDuplicates sameIdKey store →
      t ∈ removeDuplicates sameIdKey store → s = t) ∧
    (∀ r ∈ removeDuplicates sameIdKey store,
      ∃ m ∈ removeDuplicates sameIdKey store, sameTitleKey r m = true ∧
        m ∈ (deduplicate store).1 ∧
        ∀ t ∈ removeDuplicates sameIdKey store, sameTitleKey r t = true →
          t ≠ m → laterRecord m t = true) ∧
    (∀ s ∈ removeDuplicates sameIdKey store,
      ∀ t ∈ removeDuplicates sameIdKey store, sameTitleKey s t = true →
      s ∈ (deduplicate store).1 → t ∈ (deduplicate store).1 → s = t) ∧
    ((deduplicate store).2.1 + (removeDuplicates sameIdKey store).length
        = store.length ∧
      (deduplicate store).2.2 + (deduplicate store).1.length
        = (removeDuplicates sameIdKey store).length) ∧
    (∀ other : Store, store.Perm other →
      (deduplicate store).1.Perm (deduplicate other).1 ∧
      (deduplicate store).2 = (deduplicate other).2) := by
  have hids1 : (removeDuplicates sameIdKey store).Pairwise
      (fun a b => a.id ≠ b.id) :=
    List.Pairwise.sublist (List.filter_sublist store) hids
  refine ⟨?_, ?_, ?_, ?_, ⟨?_, ?_⟩, ?_⟩
  · intro r hr hrr
    obtain ⟨m, hm, hkey, hkeep, hbeats⟩ :=
      keepLatest_exists sameIdKey sameIdKey_trans store hids r hr hrr
    exact ⟨m, hm, hkey, List.mem_filter.mpr ⟨hm, hkeep⟩, hbeats⟩
  · intro s hs t ht hkey hsmem htmem
    exact keepLatest_unique sameIdKey sameIdKey_symm store hids s t hs ht
      hkey (List.mem_filter.mp hsmem).2 (List.mem_filter.mp htmem).2
  · intro r hr
    obtain ⟨m, hm, hkey, hkeep, hbeats⟩ :=
      keepLatest_exists sameTitleKey sameTitleKey_trans
        (removeDuplicates sameIdKey store) hids1 r hr (sameTitleKey_refl r)
    exact ⟨m, hm, hkey, List.mem_filter.mpr ⟨hm, hkeep⟩, hbeats⟩
  · intro s hs t ht hkey hsmem htmem
    exact keepLatest_unique sameTitleKey sameTitleKey_symm
      (removeDuplicates sameIdKey store) hids1 s t hs ht hkey
      (List.mem_filter.mp hsmem).2 (List.mem_filter.mp htmem).2
  · exact filter_not_length store (keepLatest sameIdKey store)
  · exact filter_not_length (removeDuplicates sameIdKey store)
      (keepLatest sameTitleKey (removeDuplicates sameIdKey store))
  · intro other hperm
    have h1 : (removeDuplicates sameIdKey store).Perm
        (removeDuplicates sameIdKey other) :=
      removeDuplicates_perm sameIdKey hperm
    constructor
    · exact removeDuplicates_perm sameTitleKey h1
    · have c1 := removedCount_perm sameIdKey hperm
      have c2 := removedCount_perm sameTitleKey h1
      simp only [deduplicate]
      rw [c1, c2]

/-- Witness for `dedupe_maintenance_correct`: the spec's determinism
scenario — two rows with the same normalized title and `fetched_at` T and
T+1 — has distinct ids; the reported counts account for the one deletion. -/
theorem dedupe_maintenance_correct_witness :
    ([⟨1, "Quantum  Speedup", some "id-a", "arxiv", 0, 0⟩,
      ⟨2, "quantum speedup", some "id-b", "arxiv", 0, 1⟩] : Store).Pairwise
        (fun a b => a.id ≠ b.id) ∧
    ((deduplicate
        [⟨1, "Quantum  Speedup", some "id-a", "arxiv", 0, 0⟩,
         ⟨2, "quantum speedup", some "id-b", "arxiv", 0, 1⟩]).2.1 +
      (removeDuplicates sameIdKey
        [⟨1, "Quantum  Speedup", some "id-a", "arxiv", 0, 0⟩,
         ⟨2, "quantum speedup", some "id-b", "arxiv", 0, 1⟩]).length
        = ([⟨1, "Quantum  Speedup", some "id-a", "arxiv", 0, 0⟩,
            ⟨2, "quantum speedup", some "id-b", "arxiv", 0, 1⟩] :
            Store).length ∧
      (deduplicate
        [⟨1, "Quantum  Speedup", some "id-a", "arxiv", 0, 0⟩,
         ⟨2, "quantum speedup", some "id-b", "arxiv", 0, 1⟩]).2.2 +
      (deduplicate
        [⟨1, "Quantum  Speedup", some "id-a", "arxiv", 0, 0⟩,
         ⟨2, "quantum speedup", some "id-b", "arxiv", 0, 1⟩]).1.length
        = (removeDuplicates sameIdKey
            [⟨1, "Quantum  Speedup", some "id-a", "arxiv", 0, 0⟩,
             ⟨2, "quantum speedup", some "id-b", "arxiv", 0, 1⟩]).length) :=
  ⟨by decide,
   (dedupe_maintenance_correct
      [⟨1, "Quantum  Speedup", some "id-a", "arxiv", 0, 0⟩,
       ⟨2, "quantum speedup", some "id-b", "arxiv", 0, 1⟩]
      (by decide)).2.2.2.2.1⟩

end ResearchTracker
